import Mathlib

/-!
Verification of the data-model core of `chik_clvm_rs`:
a shallow embedding of `src/node.rs` (generic tree view over an arena
capability) and of `tools/src/bin/generate-fuzz-corpus.rs` (typed operator
catalog and random program generator), with theorems settling the spec
claims about them.

Bytes are modelled as natural numbers; Rust byte strings as `List Nat`.
-/

/-- Shallow embedding of the Rust `SExp` classification enum: a node is
either an atom (byte string) or a pair of two arena handles. -/
inductive SExp (P : Type) where
  | Atom (a : List Nat)
  | Pair (l r : P)
deriving DecidableEq

/-- Shallow embedding of the `Allocator` trait from `src/allocator.rs` as a
record of its required operations over a handle type `P`.  The arena
contract obligations (clone preserves classification, `null` is the empty
atom, `one` is a non-empty atom) are stated as hypotheses of the theorems
that need them, not baked into the record. -/
structure Allocator (P : Type) where
  new_atom : List Nat → P
  new_pair : P → P → P
  sexp : P → SExp P
  make_clone : P → P
  null : P
  one : P

/-- Shallow embedding of `Node` from `src/node.rs`: an (arena, handle)
pair.  The Rust borrow `&'a T` becomes a plain field. -/
structure Node (P : Type) where
  allocator : Allocator P
  node : P

namespace Node

/-- Source `Node::new`. -/
def new {P : Type} (allocator : Allocator P) (node : P) : Node P :=
  ⟨allocator, node⟩

/-- Source `Node::with_node`. -/
def with_node {P : Type} (n : Node P) (node : P) : Node P :=
  ⟨n.allocator, node⟩

/-- Source `Node::new_atom`. -/
def new_atom {P : Type} (n : Node P) (v : List Nat) : Node P :=
  n.with_node (n.allocator.new_atom v)

/-- Source `Node::cons`. -/
def cons {P : Type} (n right : Node P) : Node P :=
  n.with_node (n.allocator.new_pair n.node right.node)

/-- Source `Node::sexp`. -/
def sexp {P : Type} (n : Node P) : SExp P :=
  n.allocator.sexp n.node

/-- Source `Node::atom`. -/
def atom {P : Type} (n : Node P) : Option (List Nat) :=
  match n.sexp with
  | .Atom a => some a
  | _ => none

/-- Source `Node::pair`. -/
def pair {P : Type} (n : Node P) : Option (Node P × Node P) :=
  match n.sexp with
  | .Pair l r => some (n.with_node l, n.with_node r)
  | _ => none

/-- Source `Node::make_clone`. -/
def make_clone {P : Type} (n : Node P) : Node P :=
  n.with_node (n.allocator.make_clone n.node)

/-- Source `Node::nullp`. -/
def nullp {P : Type} (n : Node P) : Bool :=
  match n.sexp with
  | .Atom a => a.isEmpty
  | _ => false

/-- The loop body of source `Node::arg_count_is`, recursing on the
remaining count exactly as the Rust loop decrements it. -/
def arg_count_is_loop {P : Type} (a : Allocator P) : P → Nat → Bool
  | p, 0 => (Node.new a p).nullp
  | p, count + 1 =>
    match a.sexp p with
    | .Pair _ r => arg_count_is_loop a r count
    | _ => false

/-- Source `Node::arg_count_is`: clones the handle, then walks `count`
right children and checks the remainder is nil. -/
def arg_count_is {P : Type} (n : Node P) (count : Nat) : Bool :=
  arg_count_is_loop n.allocator n.make_clone.node count

/-- Source `Node::null`. -/
def null {P : Type} (n : Node P) : Node P :=
  n.with_node n.allocator.null

/-- Source `Node::one`. -/
def one {P : Type} (n : Node P) : Node P :=
  n.with_node n.allocator.one

/-- Source `Node::as_bool`. -/
def as_bool {P : Type} (n : Node P) : Bool :=
  match n.atom with
  | some v0 => !v0.isEmpty
  | _ => true

/-- Source `Node::from_bool`. -/
def from_bool {P : Type} (n : Node P) (b : Bool) : Node P :=
  if b then n.one else n.null

/-- Source `Iterator::next for Node`: the Rust iterator mutates `self`;
here the updated iterator state is returned alongside the item. -/
def next {P : Type} (n : Node P) : Option (Node P × Node P) :=
  match n.pair with
  | some (first, rest) => some (first, n.with_node rest.node)
  | none => none

/-- Source `IntoIterator::into_iter for &Node`. -/
def into_iter {P : Type} (n : Node P) : Node P :=
  n.make_clone

/-- Runs the iterator to completion (up to `fuel` steps), returning the
handles of the yielded items and the final, unconsumed iterator handle. -/
def iter_collect {P : Type} : Nat → Node P → List P × P
  | 0, n => ([], n.node)
  | fuel + 1, n =>
    match n.next with
    | none => ([], n.node)
    | some (item, n2) =>
      let rest := iter_collect fuel n2
      (item.node :: rest.1, rest.2)

end Node

/-- Concrete inductive S-expression values, used to instantiate the arena
contract with a direct tree-backed allocator for concrete test cases. -/
inductive TreeVal where
  | atom (a : List Nat)
  | pair (l r : TreeVal)
deriving DecidableEq

/-- Tree-backed instance of the arena contract: handles are the trees
themselves, clone is the identity, `null` is the empty atom and `one` is
the single-byte atom 1. -/
def treeAlloc : Allocator TreeVal where
  new_atom := TreeVal.atom
  new_pair := TreeVal.pair
  sexp := fun t =>
    match t with
    | .atom a => .Atom a
    | .pair l r => .Pair l r
  make_clone := id
  null := TreeVal.atom []
  one := TreeVal.atom [1]

/-- Specification-side walk used to state the `arg_count_is` claim:
take `n` successive right-child steps through pairs, returning the node
reached, or `none` if a non-pair is hit before `n` steps. -/
def spine_walk {P : Type} (a : Allocator P) : Nat → P → Option P
  | 0, p => some p
  | n + 1, p =>
    match a.sexp p with
    | .Pair _ r => spine_walk a n r
    | _ => none

/-!
Embedding of `tools/src/bin/generate-fuzz-corpus.rs`.

The Rust tool draws randomness from a seeded `StdRng`.  The pseudorandom
source is modelled as an abstract read-only stream of Booleans (one per
`gen_bool` call) and of naturals (one per `gen_range` call, reduced into
the requested range by a modulus), together with cursor positions.  A
value of `Rng` therefore stands for the whole deterministic stream that a
given seed unfolds to.  Rust panics (rand aborts when asked to sample an
empty range) are modelled as `Except` errors, as is exhaustion of the
explicit recursion fuel that makes the embedded generator total.
-/

/-- Source enum `Type`: the closed set of operand/result types of the
operator catalog. -/
inductive Ty where
  | Program
  | Tree
  | List
  | PointPair
  | Bool
  | Int64
  | Int32
  | Zero
  | Cost
  | Bytes32
  | Bytes48
  | Bytes96
  | AnyAtom
deriving DecidableEq

/-- Source const `ATOMS`: the eight concrete atom kinds. -/
def ATOMS : List Ty :=
  [Ty.Bool, Ty.Int64, Ty.Int32, Ty.Zero, Ty.Cost,
   Ty.Bytes32, Ty.Bytes48, Ty.Bytes96]

/-- Source struct `OperatorInfo`. -/
structure OperatorInfo where
  opcode : Nat
  result : Ty
  operands : List Ty
deriving DecidableEq

/-- Source const fn `op`. -/
def op (opcode : Nat) (operands : List Ty) (result : Ty) : OperatorInfo :=
  ⟨opcode, result, operands⟩

/-- Source const `OPERATORS`: the full 76-row operator catalog. -/
def OPERATORS : List OperatorInfo := [
  op 2 [Ty.Program, Ty.Tree] Ty.AnyAtom,
  op 3 [Ty.Bool, Ty.Program, Ty.Program] Ty.Program,
  op 4 [Ty.AnyAtom, Ty.List] Ty.List,
  op 4 [Ty.Bytes48, Ty.Bytes96] Ty.PointPair,
  op 5 [Ty.List] Ty.AnyAtom,
  op 6 [Ty.List] Ty.List,
  op 7 [Ty.List] Ty.Bool,
  op 8 [Ty.AnyAtom] Ty.AnyAtom,
  op 9 [Ty.AnyAtom, Ty.AnyAtom] Ty.Bool,
  op 10 [Ty.AnyAtom, Ty.AnyAtom] Ty.Bool,
  op 11 [Ty.AnyAtom, Ty.AnyAtom, Ty.AnyAtom] Ty.Bytes32,
  op 12 [Ty.AnyAtom, Ty.Int32] Ty.AnyAtom,
  op 12 [Ty.AnyAtom, Ty.Int32, Ty.Int32] Ty.AnyAtom,
  op 13 [Ty.AnyAtom] Ty.Int32,
  op 14 [Ty.AnyAtom, Ty.AnyAtom] Ty.AnyAtom,
  op 14 [Ty.AnyAtom, Ty.AnyAtom, Ty.AnyAtom] Ty.AnyAtom,
  op 16 [] Ty.Int64,
  op 16 [Ty.Int64] Ty.Int64,
  op 16 [Ty.Int64, Ty.Int64] Ty.Int64,
  op 16 [Ty.Int64, Ty.Int64, Ty.Int64] Ty.Int64,
  op 17 [] Ty.Int64,
  op 17 [Ty.Int64] Ty.Int64,
  op 17 [Ty.Int64, Ty.Int64] Ty.Int64,
  op 17 [Ty.Int64, Ty.Int64, Ty.Int64] Ty.Int64,
  op 18 [Ty.Int64, Ty.Int64] Ty.Int64,
  op 19 [Ty.Int64, Ty.Int64] Ty.Int64,
  op 20 [Ty.Int64, Ty.Int64] Ty.List,
  op 21 [Ty.Int64, Ty.Int64] Ty.Bool,
  op 22 [Ty.Int64, Ty.Int32] Ty.Int64,
  op 23 [Ty.Int64, Ty.Int32] Ty.Int64,
  op 24 [] Ty.AnyAtom,
  op 24 [Ty.AnyAtom] Ty.AnyAtom,
  op 24 [Ty.AnyAtom, Ty.AnyAtom] Ty.AnyAtom,
  op 24 [Ty.AnyAtom, Ty.AnyAtom, Ty.AnyAtom] Ty.AnyAtom,
  op 25 [] Ty.AnyAtom,
  op 25 [Ty.AnyAtom] Ty.AnyAtom,
  op 25 [Ty.AnyAtom, Ty.AnyAtom] Ty.AnyAtom,
  op 25 [Ty.AnyAtom, Ty.AnyAtom, Ty.AnyAtom] Ty.AnyAtom,
  op 26 [] Ty.AnyAtom,
  op 26 [Ty.AnyAtom] Ty.AnyAtom,
  op 26 [Ty.AnyAtom, Ty.AnyAtom] Ty.AnyAtom,
  op 26 [Ty.AnyAtom, Ty.AnyAtom, Ty.AnyAtom] Ty.AnyAtom,
  op 27 [Ty.AnyAtom] Ty.AnyAtom,
  op 29 [] Ty.Bytes48,
  op 29 [Ty.Bytes48] Ty.Bytes48,
  op 29 [Ty.Bytes48, Ty.Bytes48] Ty.Bytes48,
  op 29 [Ty.Bytes48, Ty.Bytes48, Ty.Bytes48] Ty.Bytes48,
  op 30 [Ty.AnyAtom] Ty.Bytes48,
  op 32 [Ty.AnyAtom] Ty.Bool,
  op 33 [Ty.AnyAtom, Ty.AnyAtom] Ty.Bool,
  op 34 [Ty.AnyAtom, Ty.AnyAtom] Ty.Bool,
  op 36 [Ty.Cost, Ty.Zero, Ty.Program, Ty.Tree] Ty.Bool,
  op 48 [Ty.Bytes32, Ty.Bytes32, Ty.Int64] Ty.Bytes32,
  op 49 [Ty.Bytes48, Ty.Bytes48] Ty.Bytes48,
  op 50 [Ty.Bytes48, Ty.Int64] Ty.Bytes48,
  op 51 [Ty.Bytes48] Ty.Bytes48,
  op 52 [Ty.Bytes96, Ty.Bytes96] Ty.Bytes96,
  op 53 [Ty.Bytes96, Ty.Bytes96] Ty.Bytes96,
  op 54 [Ty.Bytes96, Ty.Int64] Ty.Bytes96,
  op 54 [Ty.Bytes96, Ty.Bytes32] Ty.Bytes96,
  op 54 [Ty.Bytes96, Ty.Bytes48] Ty.Bytes96,
  op 54 [Ty.Bytes96, Ty.Bytes96] Ty.Bytes96,
  op 55 [Ty.Bytes96] Ty.Bytes96,
  op 56 [Ty.AnyAtom, Ty.AnyAtom] Ty.Bytes48,
  op 57 [Ty.AnyAtom, Ty.AnyAtom] Ty.Bytes96,
  op 57 [Ty.AnyAtom] Ty.Bytes96,
  op 58 [Ty.PointPair] Ty.Bool,
  op 58 [Ty.PointPair, Ty.PointPair] Ty.Bool,
  op 58 [Ty.PointPair, Ty.PointPair, Ty.PointPair] Ty.Bool,
  op 58 [Ty.PointPair, Ty.PointPair, Ty.PointPair, Ty.PointPair] Ty.Bool,
  op 58 [Ty.PointPair, Ty.PointPair, Ty.PointPair, Ty.PointPair,
         Ty.PointPair] Ty.Bool,
  op 59 [Ty.Bytes96] Ty.Bool,
  op 59 [Ty.Bytes96, Ty.PointPair] Ty.Bool,
  op 59 [Ty.Bytes96, Ty.PointPair, Ty.PointPair] Ty.Bool,
  op 59 [Ty.Bytes96, Ty.PointPair, Ty.PointPair, Ty.PointPair] Ty.Bool,
  op 59 [Ty.Bytes96, Ty.PointPair, Ty.PointPair, Ty.PointPair,
         Ty.PointPair] Ty.Bool]

/-- Source const `ZEROS`: 96 zero bytes. -/
def ZEROS : List Nat := List.replicate 96 0

/-- Source const `INTERESTING_U32`. -/
def INTERESTING_U32 : List Nat :=
  [0, 1, 5, 0xff, 0xffff, 0x100, 0xffffffff, 0x7fffffff, 0x800000]

/-- Source const `INTERESTING_U64`. -/
def INTERESTING_U64 : List Nat :=
  [0, 1, 5, 0xff, 0xffffffffffffffff, 0x100,
   0x8000000000000000, 0x7fffffffffffffff]

/-- Abstract model of the seeded pseudorandom source (`StdRng`): the
streams of outcomes that the seed determines, plus read cursors. -/
structure Rng where
  bools : Nat → Bool
  nats : Nat → Nat
  bi : Nat
  ni : Nat

/-- Advances the Boolean cursor. -/
def Rng.stepB (r : Rng) : Rng :=
  { r with bi := r.bi + 1 }

/-- Advances the natural-number cursor. -/
def Rng.stepN (r : Rng) : Rng :=
  { r with ni := r.ni + 1 }

/-- Model of `rng.gen_bool(num/den)`: draws the next Boolean of the
stream.  The probability arguments record the constant at the Rust call
site; in this abstraction they do not constrain the stream. -/
def gen_bool (num den : Nat) (r : Rng) : Bool × Rng :=
  let _ := (num, den)
  (r.bools r.bi, r.stepB)

/-- Model of `rng.gen_range(lo..hi)` at the call sites where the range is
nonempty by construction: the draw is reduced into the range by a
modulus. -/
def gen_range (lo hi : Nat) (r : Rng) : Nat × Rng :=
  (lo + r.nats r.ni % (hi - lo), r.stepN)

/-- Error outcomes of the embedded generator: `fuel` is exhaustion of the
explicit recursion bound (a modelling artifact), `emptyRange` is the
abort that rand raises when `gen_range` is asked for an empty range —
the Rust process panic. -/
inductive GenErr where
  | fuel
  | emptyRange
deriving DecidableEq

/-- Source fn `sample`: picks a uniformly random element.  On an empty
slice the underlying `gen_range(0..0)` aborts, modelled as
`GenErr.emptyRange`. -/
def sample {α : Type} (r : Rng) (vec : List α) : Except GenErr (α × Rng) :=
  if h : vec.length = 0 then .error .emptyRange
  else
    .ok (vec.get ⟨r.nats r.ni % vec.length, Nat.mod_lt _ (Nat.pos_of_ne_zero h)⟩,
      r.stepN)

/-- Source fn `rand_atom_type`: indexes `ATOMS` (length 8, never empty)
with `gen_range`. -/
def rand_atom_type (r : Rng) : Ty × Rng :=
  (ATOMS.get ⟨r.nats r.ni % ATOMS.length, Nat.mod_lt _ (by decide)⟩, r.stepN)

/-- Source fn `generate_u32`. -/
def generate_u32 (r : Rng) : Except GenErr (Nat × Rng) :=
  sample r INTERESTING_U32

/-- Source fn `generate_u64`. -/
def generate_u64 (r : Rng) : Except GenErr (Nat × Rng) :=
  sample r INTERESTING_U64

/-- Source fn `type_convertible` (the Rust parameters are named from/to;
`to` is reserved in Lean, so they are `fr` and `tgt` here). -/
def type_convertible (fr tgt : Ty) : Bool :=
  fr == tgt
    || (tgt == Ty.AnyAtom && ATOMS.contains fr)
    || (tgt == Ty.Tree && fr == Ty.List)
    || (tgt == Ty.Zero && fr == Ty.Int32)
    || (tgt == Ty.Cost && fr == Ty.Int64)

/-- Big-endian fixed-width byte decomposition, modelling Rust
`uN::to_be_bytes`. -/
def be_bytes (k n : Nat) : List Nat :=
  (List.range k).map (fun i => n / 256 ^ (k - 1 - i) % 256)

/-- Modelled from the spec: the atom encoder of the canonical codec
(`klvmr::serde::write_atom`, whose code is outside `src/`).  Per the
spec's leading-byte discipline: a zero-length atom is the single byte
0x80, a one-byte atom below 0x80 is that byte itself, and longer atoms
carry a length prefix followed by the raw content bytes, with prefix
tiers wide enough for every length this tool emits (at most 96). -/
def write_atom (buffer : List Nat) (bytes : List Nat) : List Nat :=
  match bytes with
  | [] => buffer ++ [0x80]
  | [b] => if b < 0x80 then buffer ++ [b] else buffer ++ [0x81, b]
  | _ =>
    let n := bytes.length
    if n < 0x40 then buffer ++ (0x80 + n) :: bytes
    else if n < 0x2000 then
      buffer ++ (0xc0 + n / 0x100) :: (n % 0x100) :: bytes
    else
      buffer ++ (0xe0 + n / 0x10000) :: (n / 0x100 % 0x100) :: (n % 0x100) :: bytes

mutual

/-- Source fn `generate_program`, with the global `OPERATORS` made an
explicit `catalog` argument and an explicit recursion fuel.  When the
nested-call branch finds no catalog entry with a convertible result the
source prints a log line and then aborts inside `sample`
(`gen_range` on the empty range), which surfaces here as
`GenErr.emptyRange`. -/
def generate_program (catalog : List OperatorInfo) :
    Nat → OperatorInfo → Rng → List Nat → Except GenErr (List Nat × Rng)
  | 0, _, _, _ => .error .fuel
  | fuel + 1, oper, rng, buffer =>
    match genOperands catalog fuel oper.operands rng
        (buffer ++ [0xff, oper.opcode]) with
    | .error e => .error e
    | .ok (buffer2, rng2) => .ok (buffer2 ++ [0x80], rng2)

/-- The operand loop of `generate_program`: 30% chance of a nested call
to an operator whose result converts to the operand type, otherwise a
quoted freshly generated literal. -/
def genOperands (catalog : List OperatorInfo) :
    Nat → List Ty → Rng → List Nat → Except GenErr (List Nat × Rng)
  | _, [], rng, buffer => .ok (buffer, rng)
  | 0, _ :: _, _, _ => .error .fuel
  | fuel + 1, arg :: rest, rng, buffer =>
    let buffer1 := buffer ++ [0xff]
    match gen_bool 3 10 rng with
    | (true, rng1) =>
      let potential_ops := catalog.filter fun o => type_convertible o.result arg
      match sample rng1 potential_ops with
      | .error e => .error e
      | .ok (sub_op, rng2) =>
        match generate_program catalog fuel sub_op rng2 buffer1 with
        | .error e => .error e
        | .ok (buffer2, rng3) => genOperands catalog fuel rest rng3 buffer2
    | (false, rng1) =>
      match generate catalog fuel arg rng1 (buffer1 ++ [0xff, 1]) with
      | .error e => .error e
      | .ok (buffer2, rng2) => genOperands catalog fuel rest rng2 buffer2

/-- Source fn `generate`: emits a canonically encoded random value of the
requested type. -/
def generate (catalog : List OperatorInfo) :
    Nat → Ty → Rng → List Nat → Except GenErr (List Nat × Rng)
  | 0, _, _, _ => .error .fuel
  | fuel + 1, t, rng, buffer =>
    match t with
    | .Tree =>
      let buffer1 := buffer ++ [0xff]
      let (b1, rng1) := gen_bool 1 10 rng
      let (left_side, rng2) := if b1 then (Ty.Tree, rng1) else rand_atom_type rng1
      let (b2, rng3) := gen_bool 1 10 rng2
      let (right_side, rng4) := if b2 then (Ty.Tree, rng3) else rand_atom_type rng3
      match generate catalog fuel left_side rng4 buffer1 with
      | .error e => .error e
      | .ok (buffer2, rng5) => generate catalog fuel right_side rng5 buffer2
    | .List =>
      let (len, rng1) := gen_range 0 10 rng
      genList catalog fuel len rng1 buffer
    | .PointPair =>
      let buffer1 := buffer ++ [0xff]
      match generate catalog fuel .Bytes48 rng buffer1 with
      | .error e => .error e
      | .ok (buffer2, rng1) => generate catalog fuel .Bytes96 rng1 buffer2
    | .Program =>
      match sample rng catalog with
      | .error e => .error e
      | .ok (oper, rng1) => generate_program catalog fuel oper rng1 buffer
    | .Bool =>
      let (b, rng1) := gen_bool 5 10 rng
      if b then .ok (buffer ++ [0x80], rng1) else .ok (buffer ++ [1], rng1)
    | .Int64 =>
      match generate_u64 rng with
      | .error e => .error e
      | .ok (v, rng1) => .ok (write_atom buffer (be_bytes 8 v), rng1)
    | .Int32 =>
      match generate_u32 rng with
      | .error e => .error e
      | .ok (v, rng1) => .ok (write_atom buffer (be_bytes 4 v), rng1)
    | .Zero => .ok (buffer ++ [0x80], rng)
    | .Cost => .ok (write_atom buffer (be_bytes 8 8000000000), rng)
    | .Bytes32 => .ok (write_atom buffer (ZEROS.take 32), rng)
    | .Bytes48 => .ok (write_atom buffer (ZEROS.take 48), rng)
    | .Bytes96 => .ok (write_atom buffer ZEROS, rng)
    | .AnyAtom =>
      let (t2, rng1) := rand_atom_type rng
      generate catalog fuel t2 rng1 buffer

/-- The body of `generate`'s `Type::List` arm: emits `len` cons cells of
random atoms, terminated by the empty atom. -/
def genList (catalog : List OperatorInfo) :
    Nat → Nat → Rng → List Nat → Except GenErr (List Nat × Rng)
  | _, 0, rng, buffer => .ok (buffer ++ [0x80], rng)
  | 0, _ + 1, _, _ => .error .fuel
  | fuel + 1, len + 1, rng, buffer =>
    let (t, rng1) := rand_atom_type rng
    match generate catalog fuel t rng1 (buffer ++ [0xff]) with
    | .error e => .error e
    | .ok (buffer2, rng2) => genList catalog fuel len rng2 buffer2

end

/-- The operand loop of source fn `generate_args`: always quoted
literals, no nested calls. -/
def genArgsLoop (catalog : List OperatorInfo) (fuel : Nat) :
    List Ty → Rng → List Nat → Except GenErr (List Nat × Rng)
  | [], rng, buffer => .ok (buffer ++ [0x80], rng)
  | arg :: rest, rng, buffer =>
    match generate catalog fuel arg rng (buffer ++ [0xff, 0xff, 1]) with
    | .error e => .error e
    | .ok (buffer2, rng2) => genArgsLoop catalog fuel rest rng2 buffer2

/-- Source fn `generate_args`. -/
def generate_args (catalog : List OperatorInfo) (fuel : Nat)
    (oper : OperatorInfo) (rng : Rng) (buffer : List Nat) :
    Except GenErr (List Nat × Rng) :=
  genArgsLoop catalog fuel oper.operands rng buffer

/-- One corpus loop of source fn `main`: starting at sample index `i`,
generates `n` samples, each into a freshly truncated buffer, with the
operator row selected as `OPERATORS[i % OPERATORS.len()]`.  The
generating function is passed in so that the same loop serves both the
program corpus and the argument-list corpus. -/
def corpus_loop
    (gen : OperatorInfo → Rng → List Nat → Except GenErr (List Nat × Rng))
    (catalog : List OperatorInfo) :
    Nat → Nat → Rng → Except GenErr (List (List Nat) × Rng)
  | _, 0, rng => .ok ([], rng)
  | i, n + 1, rng =>
    match catalog.get? (i % catalog.length) with
    | none => .error .emptyRange
    | some oper =>
      match gen oper rng [] with
      | .error e => .error e
      | .ok (buf, rng2) =>
        match corpus_loop gen catalog (i + 1) n rng2 with
        | .error e => .error e
        | .ok (bufs, rng3) => .ok (buf :: bufs, rng3)

/-- Source fn `main`, restricted to the data it emits: the sequence of
20000 program sample buffers followed by the sequence of 20000
argument-list sample buffers, both driven by the single pseudorandom
stream that the fixed seed determines. -/
def main_corpus (catalog : List OperatorInfo) (fuel : Nat) (rng : Rng) :
    Except GenErr (List (List Nat) × List (List Nat)) :=
  match corpus_loop (generate_program catalog fuel) catalog 0 20000 rng with
  | .error e => .error e
  | .ok (progs, rng2) =>
    match corpus_loop (generate_args catalog fuel) catalog 0 20000 rng2 with
    | .error e => .error e
    | .ok (argss, _) => .ok (progs, argss)

/-!
Specification-side notions used to state the claims, and concrete fixture
values for witnesses and counterexamples.
-/

/-- Property that `lit` is a byte string the generator can emit as a
fresh literal of type `t` (for some fuel, some pseudorandom stream and
some ambient buffer). -/
def LitBytes (catalog : List OperatorInfo) (t : Ty) (lit : List Nat) : Prop :=
  ∃ fuel rng buffer rng2,
    generate catalog fuel t rng buffer = .ok (buffer ++ lit, rng2)

mutual

/-- Characterization, written from the spec's description, of the byte
strings `generate_program` may emit for an operator signature: the
pair-encoded, nil-terminated list of the opcode followed by one block
per declared operand. -/
inductive ProgBytes (catalog : List OperatorInfo) :
    OperatorInfo → List Nat → Prop where
  | mk (oper : OperatorInfo) (body : List Nat) :
      OperandsBytes catalog oper.operands body →
      ProgBytes catalog oper ([0xff, oper.opcode] ++ body ++ [0x80])

/-- Operand blocks: each operand is a cons cell whose payload is either a
nested call to a catalog operator with a convertible result type, or a
quote wrapper (a pair whose left side is the single-byte atom 1) around a
fresh literal of the operand type. -/
inductive OperandsBytes (catalog : List OperatorInfo) :
    List Ty → List Nat → Prop where
  | nil : OperandsBytes catalog [] []
  | nested (t : Ty) (rest : List Ty) (sub_op : OperatorInfo) (bs rs : List Nat) :
      sub_op ∈ catalog →
      type_convertible sub_op.result t = true →
      ProgBytes catalog sub_op bs →
      OperandsBytes catalog rest rs →
      OperandsBytes catalog (t :: rest) (0xff :: (bs ++ rs))
  | quoted (t : Ty) (rest : List Ty) (lit rs : List Nat) :
      LitBytes catalog t lit →
      OperandsBytes catalog rest rs →
      OperandsBytes catalog (t :: rest) (0xff :: 0xff :: 1 :: (lit ++ rs))

end

/-- Modelled from the spec: the leading-byte classes of the canonical
codec (the codec itself lives outside `src/`): 0xFF marks a pair, 0x80
the empty atom, 0x00 to 0x7F a single-byte atom whose value is the byte
itself, and everything else opens a length-prefixed multi-byte atom. -/
inductive ByteClass where
  | pairMarker
  | emptyAtom
  | singleByte (v : Nat)
  | lengthPrefixed
deriving DecidableEq

/-- Modelled from the spec: classifies a leading byte of the canonical
codec. -/
def classify_leading (b : Nat) : ByteClass :=
  if b = 0xff then .pairMarker
  else if b = 0x80 then .emptyAtom
  else if b ≤ 0x7f then .singleByte b
  else .lengthPrefixed

/-- Pseudorandom stream all of whose Boolean draws are true. -/
def rng_true : Rng := ⟨fun _ => true, fun _ => 0, 0, 0⟩

/-- Pseudorandom stream all of whose Boolean draws are false. -/
def rng_false : Rng := ⟨fun _ => false, fun _ => 0, 0, 0⟩

/-- A deliberately defective operator row: its one operand type `Tree`
has no convertible result type in the defective catalog below. -/
def defective_operator : OperatorInfo := op 99 [Ty.Tree] Ty.AnyAtom

/-- A deliberately defective catalog: no row's result type is convertible
to `Tree` (the sole row yields `AnyAtom`). -/
def defective_catalog : List OperatorInfo := [defective_operator]

/-!
Helper lemmas.
-/

/-- Whatever `sample` returns was an element of the sampled slice. -/
theorem sample_mem {α : Type} {r : Rng} {xs : List α} {x : α} {r2 : Rng}
    (h : sample r xs = .ok (x, r2)) : x ∈ xs := by
  unfold sample at h
  split at h
  · exact absurd h (by simp)
  · injection h with h1
    injection h1 with h2 h3
    rw [← h2]
    exact List.get_mem _ _ _

/-- The atom encoder only appends to the buffer it is given. -/
theorem write_atom_prepend (buffer bytes : List Nat) :
    write_atom buffer bytes = buffer ++ write_atom [] bytes := by
  rcases bytes with _ | ⟨b, _ | ⟨c, rest⟩⟩
  · simp [write_atom]
  · simp only [write_atom]
    split_ifs <;> simp
  · simp only [write_atom]
    split_ifs <;> simp

/-- Structural characterization of the generator: every successful run
only appends to the buffer it is given, and what `generate_program`
appends is a pair-encoded call of the shape `ProgBytes` describes. -/
theorem gen_shape_all (catalog : List OperatorInfo) : ∀ fuel : Nat,
    (∀ oper rng buffer out rng2,
      generate_program catalog fuel oper rng buffer = .ok (out, rng2) →
      ∃ e, out = buffer ++ e ∧ ProgBytes catalog oper e) ∧
    (∀ args rng buffer out rng2,
      genOperands catalog fuel args rng buffer = .ok (out, rng2) →
      ∃ e, out = buffer ++ e ∧ OperandsBytes catalog args e) ∧
    (∀ t rng buffer out rng2,
      generate catalog fuel t rng buffer = .ok (out, rng2) →
      ∃ e, out = buffer ++ e) ∧
    (∀ len rng buffer out rng2,
      genList catalog fuel len rng buffer = .ok (out, rng2) →
      ∃ e, out = buffer ++ e) := by
  intro fuel
  induction fuel with
  | zero =>
    refine ⟨?_, ?_, ?_, ?_⟩
    · intro oper rng buffer out rng2 h
      simp [generate_program] at h
    · intro args rng buffer out rng2 h
      cases args with
      | nil =>
        simp only [genOperands] at h
        injection h with h1
        injection h1 with h2 h3
        exact ⟨[], by simp [← h2], OperandsBytes.nil⟩
      | cons a rest => simp [genOperands] at h
    · intro t rng buffer out rng2 h
      simp [generate] at h
    · intro len rng buffer out rng2 h
      cases len with
      | zero =>
        simp only [genList] at h
        injection h with h1
        injection h1 with h2 h3
        exact ⟨[0x80], by simp [← h2]⟩
      | succ n => simp [genList] at h
  | succ fuel ih =>
    obtain ⟨ihgp, ihgo, ihgen, ihgl⟩ := ih
    refine ⟨?_, ?_, ?_, ?_⟩
    · -- generate_program appends one full call
      intro oper rng buffer out rng2 h
      simp only [generate_program] at h
      split at h
      · simp at h
      · rename_i b2 r2 hgo
        simp only [Except.ok.injEq, Prod.mk.injEq] at h
        obtain ⟨body, hb, hOB⟩ := ihgo _ _ _ _ _ hgo
        refine ⟨[0xff, oper.opcode] ++ (body ++ [0x80]), ?_, ?_⟩
        · rw [← h.1, hb]; simp
        · simpa using ProgBytes.mk oper body hOB
    · -- genOperands appends one block per operand
      intro args rng buffer out rng2 h
      cases args with
      | nil =>
        simp only [genOperands] at h
        injection h with h1
        injection h1 with h2 h3
        exact ⟨[], by simp [← h2], OperandsBytes.nil⟩
      | cons arg rest =>
        simp only [genOperands] at h
        split at h
        · -- nested-call branch
          split at h
          · simp at h
          · rename_i sub_op rngB hs
            split at h
            · simp at h
            · rename_i buffer2 rng3 hgp
              obtain ⟨bs, hbs, hPB⟩ := ihgp _ _ _ _ _ hgp
              obtain ⟨rs, hrs, hORs⟩ := ihgo _ _ _ _ _ h
              have hmem := sample_mem hs
              rw [List.mem_filter] at hmem
              refine ⟨0xff :: (bs ++ rs), ?_,
                OperandsBytes.nested arg rest sub_op bs rs hmem.1 hmem.2 hPB hORs⟩
              rw [hrs, hbs]; simp
        · -- quoted-literal branch
          split at h
          · simp at h
          · rename_i buffer2 rng3 hgen
            obtain ⟨lit, hlit⟩ := ihgen _ _ _ _ _ hgen
            obtain ⟨rs, hrs, hORs⟩ := ihgo _ _ _ _ _ h
            refine ⟨0xff :: 0xff :: 1 :: (lit ++ rs), ?_,
              OperandsBytes.quoted arg rest lit rs ⟨fuel, _, _, rng3, hlit ▸ hgen⟩ hORs⟩
            rw [hrs, hlit]; simp
    · -- generate appends one encoded value
      intro t rng buffer out rng2 h
      cases t with
      | Tree =>
        simp only [generate] at h
        split at h
        · simp at h
        · rename_i b2 r5 hg1
          obtain ⟨e1, he1⟩ := ihgen _ _ _ _ _ hg1
          obtain ⟨e2, he2⟩ := ihgen _ _ _ _ _ h
          exact ⟨0xff :: (e1 ++ e2), by rw [he2, he1]; simp⟩
      | List =>
        simp only [generate] at h
        exact ihgl _ _ _ _ _ h
      | PointPair =>
        simp only [generate] at h
        split at h
        · simp at h
        · rename_i b2 r5 hg1
          obtain ⟨e1, he1⟩ := ihgen _ _ _ _ _ hg1
          obtain ⟨e2, he2⟩ := ihgen _ _ _ _ _ h
          exact ⟨0xff :: (e1 ++ e2), by rw [he2, he1]; simp⟩
      | Program =>
        simp only [generate] at h
        split at h
        · simp at h
        · rename_i oper rngB hs
          obtain ⟨e, he, hPB⟩ := ihgp _ _ _ _ _ h
          exact ⟨e, he⟩
      | Bool =>
        simp only [generate] at h
        split at h <;>
          simp only [Except.ok.injEq, Prod.mk.injEq] at h
        · exact ⟨[0x80], h.1.symm⟩
        · exact ⟨[1], h.1.symm⟩
      | Int64 =>
        simp only [generate] at h
        split at h
        · simp at h
        · rename_i v rngB hs
          simp only [Except.ok.injEq, Prod.mk.injEq] at h
          exact ⟨write_atom [] (be_bytes 8 v), by rw [← h.1, write_atom_prepend]⟩
      | Int32 =>
        simp only [generate] at h
        split at h
        · simp at h
        · rename_i v rngB hs
          simp only [Except.ok.injEq, Prod.mk.injEq] at h
          exact ⟨write_atom [] (be_bytes 4 v), by rw [← h.1, write_atom_prepend]⟩
      | Zero =>
        simp only [generate, Except.ok.injEq, Prod.mk.injEq] at h
        exact ⟨[0x80], h.1.symm⟩
      | Cost =>
        simp only [generate, Except.ok.injEq, Prod.mk.injEq] at h
        exact ⟨write_atom [] (be_bytes 8 8000000000), by rw [← h.1, write_atom_prepend]⟩
      | Bytes32 =>
        simp only [generate, Except.ok.injEq, Prod.mk.injEq] at h
        exact ⟨write_atom [] (ZEROS.take 32), by rw [← h.1, write_atom_prepend]⟩
      | Bytes48 =>
        simp only [generate, Except.ok.injEq, Prod.mk.injEq] at h
        exact ⟨write_atom [] (ZEROS.take 48), by rw [← h.1, write_atom_prepend]⟩
      | Bytes96 =>
        simp only [generate, Except.ok.injEq, Prod.mk.injEq] at h
        exact ⟨write_atom [] ZEROS, by rw [← h.1, write_atom_prepend]⟩
      | AnyAtom =>
        simp only [generate] at h
        exact ihgen _ _ _ _ _ h
    · -- genList appends the encoded list elements
      intro len rng buffer out rng2 h
      cases len with
      | zero =>
        simp only [genList] at h
        injection h with h1
        injection h1 with h2 h3
        exact ⟨[0x80], by simp [← h2]⟩
      | succ n =>
        simp only [genList] at h
        split at h
        · simp at h
        · rename_i b2 r5 hg1
          obtain ⟨e1, he1⟩ := ihgen _ _ _ _ _ hg1
          obtain ⟨e2, he2⟩ := ihgl _ _ _ _ _ h
          exact ⟨0xff :: (e1 ++ e2), by rw [he2, he1]; simp⟩

/-- Congruence for the `arg_count_is` loop: it only inspects its start
handle through `sexp`. -/
theorem arg_count_is_loop_congr {P : Type} (a : Allocator P) (p1 p2 : P)
    (hpp : a.sexp p1 = a.sexp p2) (n : Nat) :
    Node.arg_count_is_loop a p1 n = Node.arg_count_is_loop a p2 n := by
  cases n with
  | zero =>
    simp only [Node.arg_count_is_loop, Node.nullp, Node.new, Node.sexp, hpp]
  | succ n =>
    simp only [Node.arg_count_is_loop, Node.sexp, hpp]

/-- The loop of `arg_count_is` agrees with the specification walk. -/
theorem arg_count_is_loop_spec {P : Type} (a : Allocator P) :
    ∀ (n : Nat) (p : P),
      Node.arg_count_is_loop a p n = true ↔
        ∃ q, spine_walk a n p = some q ∧ a.sexp q = SExp.Atom [] := by
  intro n
  induction n with
  | zero =>
    intro p
    simp only [Node.arg_count_is_loop, Node.nullp, Node.new, Node.sexp,
      spine_walk]
    cases hp : a.sexp p with
    | Atom xs => simp [hp, List.isEmpty_iff]
    | Pair l r => simp [hp]
  | succ n ihn =>
    intro p
    simp only [Node.arg_count_is_loop, spine_walk]
    cases hp : a.sexp p with
    | Atom xs => simp
    | Pair l r => exact ihn r

/-- Reachability of every operand type in the shipped catalog: for each
of the thirteen types some catalog row's result type is convertible to
it, so the shipped generator never meets an empty candidate list. -/
theorem catalog_reachable (t : Ty) :
    (OPERATORS.filter fun o => type_convertible o.result t) ≠ [] := by
  cases t <;> decide

/-!
Claim theorems.
-/

/-- Claim C2: `arg_count_is(v, n)` is true exactly when `n` successive
right-child pair-steps from `v` end on a zero-length atom (assuming the
arena contract that cloning preserves classification); in particular it
is true for n = 2 on `Pair(1, Pair(2, empty))`, false for n = 2 on
`Pair(1, Pair(2, Pair(3, empty)))` and false for n = 2 on
`Pair(1, 2)`. -/
theorem c2_arg_count_is_spec :
    (∀ (P : Type) (a : Allocator P),
      (∀ q, a.sexp (a.make_clone q) = a.sexp q) →
      ∀ (v : P) (n : Nat),
        (Node.new a v).arg_count_is n = true ↔
          ∃ q, spine_walk a n v = some q ∧ a.sexp q = SExp.Atom []) ∧
    (Node.new treeAlloc
      (.pair (.atom [1]) (.pair (.atom [2]) (.atom [])))).arg_count_is 2 = true ∧
    (Node.new treeAlloc
      (.pair (.atom [1])
        (.pair (.atom [2]) (.pair (.atom [3]) (.atom []))))).arg_count_is 2 = false ∧
    (Node.new treeAlloc (.pair (.atom [1]) (.atom [2]))).arg_count_is 2 = false := by
  refine ⟨?_, by decide, by decide, by decide⟩
  intro P a hclone v n
  unfold Node.arg_count_is
  simp only [Node.new, Node.make_clone, Node.with_node]
  rw [arg_count_is_loop_congr a _ v (hclone v)]
  exact arg_count_is_loop_spec a n v

/-- Witness for C2 at a concrete allocator and tree: the tree-backed
allocator satisfies the clone contract definitionally. -/
theorem c2_witness :
    (Node.new treeAlloc
      (.pair (.atom [1]) (.pair (.atom [2]) (.atom [])))).arg_count_is 2 = true ↔
      ∃ q, spine_walk treeAlloc 2
          (TreeVal.pair (.atom [1]) (.pair (.atom [2]) (.atom []))) = some q ∧
        treeAlloc.sexp q = SExp.Atom [] :=
  c2_arg_count_is_spec.1 TreeVal treeAlloc (fun _ => rfl)
    (TreeVal.pair (.atom [1]) (.pair (.atom [2]) (.atom []))) 2

/-- Claim C3: iterating a tree view yields the left children of the
right-descending pair spine and stops as soon as the current node is not
a pair, with no requirement that the terminal node be the empty atom: on
`Pair(1, Pair(2, 3))` it yields exactly the items 1 and 2 and leaves the
atom 3 unconsumed. -/
theorem c3_iteration_dotted :
    Node.iter_collect 5 (Node.into_iter (Node.new treeAlloc
      (.pair (.atom [1]) (.pair (.atom [2]) (.atom [3]))))) =
      ([TreeVal.atom [1], TreeVal.atom [2]], TreeVal.atom [3]) ∧
    ∀ (P : Type) (a : Allocator P) (p : P),
      (Node.new a p).next = none ↔ ∀ l r, a.sexp p ≠ SExp.Pair l r := by
  refine ⟨by decide, ?_⟩
  intro P a p
  unfold Node.next Node.pair
  cases hp : (Node.new a p).sexp with
  | Atom xs =>
    simp only [Node.sexp, Node.new] at hp
    simp [hp]
  | Pair l r =>
    simp only [Node.sexp, Node.new] at hp
    simp [hp]

/-- Claim C5: `as_bool` is false exactly on zero-length atoms and true on
every other atom and every pair; `nullp` is true exactly on zero-length
atoms.  Concretely the empty atom is falsy while `[0x00]`, `[0x01]` and
any pair are truthy. -/
theorem c5_truthiness :
    (∀ (P : Type) (a : Allocator P) (p : P),
      ((Node.new a p).as_bool = false ↔ a.sexp p = SExp.Atom []) ∧
      ((Node.new a p).nullp = true ↔ a.sexp p = SExp.Atom [])) ∧
    (Node.new treeAlloc (.atom [])).as_bool = false ∧
    (Node.new treeAlloc (.atom [0])).as_bool = true ∧
    (Node.new treeAlloc (.atom [1])).as_bool = true ∧
    (Node.new treeAlloc (.pair (.atom []) (.atom []))).as_bool = true := by
  refine ⟨?_, by decide, by decide, by decide, by decide⟩
  intro P a p
  unfold Node.as_bool Node.atom Node.nullp
  cases hp : (Node.new a p).sexp with
  | Atom xs =>
    simp only [Node.sexp, Node.new] at hp
    simp [hp, List.isEmpty_iff]
  | Pair l r =>
    simp only [Node.sexp, Node.new] at hp
    simp [hp]

/-- Claim C9: round-tripping a Boolean through `from_bool` and `as_bool`
is the identity, given the arena contract that `null()` is the
zero-length atom and `one()` a non-empty atom. -/
theorem c9_from_bool_as_bool :
    ∀ (P : Type) (a : Allocator P) (p : P) (b : Bool),
      a.sexp a.null = SExp.Atom [] →
      (∃ v, a.sexp a.one = SExp.Atom v ∧ v ≠ []) →
      ((Node.new a p).from_bool b).as_bool = b := by
  intro P a p b hnull ⟨v, hone, hv⟩
  cases b with
  | false =>
    simp [Node.from_bool, Node.null, Node.as_bool, Node.atom, Node.sexp,
      Node.with_node, Node.new, hnull]
  | true =>
    simp [Node.from_bool, Node.one, Node.as_bool, Node.atom, Node.sexp,
      Node.with_node, Node.new, hone, hv]

/-- Witness for C9 at the tree-backed allocator with b = true. -/
theorem c9_witness :
    ((Node.new treeAlloc (TreeVal.atom [])).from_bool true).as_bool = true :=
  c9_from_bool_as_bool TreeVal treeAlloc (TreeVal.atom []) true rfl
    ⟨[1], rfl, by decide⟩

/-- Claim C4: `type_convertible` holds exactly for equal types, for any
concrete atom kind into `AnyAtom`, for `List` into `Tree`, for `Int32`
into `Zero` and for `Int64` into `Cost`, and it is directional. -/
theorem c4_type_convertible_characterization :
    (∀ fr tgt : Ty,
      type_convertible fr tgt = true ↔
        (fr = tgt ∨ (tgt = Ty.AnyAtom ∧ fr ∈ ATOMS) ∨
          (tgt = Ty.Tree ∧ fr = Ty.List) ∨ (tgt = Ty.Zero ∧ fr = Ty.Int32) ∨
          (tgt = Ty.Cost ∧ fr = Ty.Int64))) ∧
    type_convertible Ty.List Ty.Tree = true ∧
    type_convertible Ty.Tree Ty.List = false := by
  refine ⟨?_, by decide, by decide⟩
  intro fr tgt
  cases fr <;> cases tgt <;> decide

/-- Claim C1 (amended): in the shipped catalog every operand type has a
catalog entry with a convertible result type, so the empty-candidate
branch is unreachable; and whenever a run does reach an operand type with
no convertible catalog entry (possible only for a defective catalog), the
source logs the condition and then the whole generation aborts — rand
panics sampling from the empty candidate list — rather than skipping the
sample. -/
theorem c1_missing_entry_aborts :
    (∀ t : Ty, (OPERATORS.filter fun o => type_convertible o.result t) ≠ []) ∧
    ∀ (catalog : List OperatorInfo) (oper : OperatorInfo) (t : Ty)
      (rest : List Ty) (rng : Rng) (fuel : Nat) (buffer : List Nat),
      oper.operands = t :: rest →
      (catalog.filter fun o => type_convertible o.result t) = [] →
      rng.bools rng.bi = true →
      generate_program catalog (fuel + 2) oper rng buffer =
        .error .emptyRange := by
  refine ⟨catalog_reachable, ?_⟩
  intro catalog oper t rest rng fuel buffer hops hfilter hb
  simp only [generate_program]
  rw [hops]
  simp only [genOperands, gen_bool, hb]
  rw [hfilter]
  simp [sample]

/-- Counterexample to claim C1 as stated: with a catalog in which no
entry's result type converts to the operand type `Tree`, the generator
does not skip the sample — the run aborts with the empty-range panic. -/
theorem c1_counterexample :
    generate_program defective_catalog 2 defective_operator rng_true [] =
      .error .emptyRange := by rfl

/-- Witness for C1 applying the amended theorem at a concrete defective
catalog, operator, stream and buffer. -/
theorem c1_witness :
    generate_program defective_catalog 3 defective_operator rng_true [] =
      .error .emptyRange :=
  c1_missing_entry_aborts.2 defective_catalog defective_operator Ty.Tree []
    rng_true 1 [] rfl (by decide) rfl

/-- Claim C6: every successful `generate_program` run appends to its
buffer the pair-encoded, nil-terminated list of the opcode followed by
one cons block per declared operand, each block being either a nested
call to a catalog operator whose result type is convertible to the
operand type (the branch taken on the gen_bool(0.3) draw) or a quote
wrapper — a pair whose left side is the single-byte atom 1 — around a
freshly generated literal of the operand type. -/
theorem c6_generate_call_shape :
    ∀ (catalog : List OperatorInfo) (fuel : Nat) (oper : OperatorInfo)
      (rng rng2 : Rng) (buffer out : List Nat),
      generate_program catalog fuel oper rng buffer = .ok (out, rng2) →
      ∃ emitted, out = buffer ++ emitted ∧ ProgBytes catalog oper emitted := by
  intro catalog fuel oper rng rng2 buffer out h
  exact (gen_shape_all catalog fuel).1 oper rng buffer out rng2 h

/-- Witness for C6 at the nullary add operator: its emitted call is the
three bytes pair marker, opcode 16, nil terminator. -/
theorem c6_witness :
    ∃ emitted, ([0xff, 16, 0x80] : List Nat) = [] ++ emitted ∧
      ProgBytes OPERATORS (op 16 [] Ty.Int64) emitted :=
  c6_generate_call_shape OPERATORS 1 (op 16 [] Ty.Int64) rng_false rng_false
    [] [0xff, 16, 0x80] rfl

/-- Claim C7: corpus generation is a deterministic function of the seeded
pseudorandom stream and the catalog ordering — two runs with identical
seed stream and identical catalog produce byte-identical sample buffer
sequences.  In this embedding the whole pipeline consumes no state other
than these two inputs, so determinism is functionality. -/
theorem c7_determinism :
    ∀ (catalog1 catalog2 : List OperatorInfo) (fuel : Nat) (rng1 rng2 : Rng),
      catalog1 = catalog2 → rng1 = rng2 →
      main_corpus catalog1 fuel rng1 = main_corpus catalog2 fuel rng2 := by
  intro c1 c2 fuel r1 r2 hc hr
  rw [hc, hr]

/-- Witness for C7 at the shipped catalog and a concrete stream. -/
theorem c7_witness :
    main_corpus OPERATORS 1 rng_false = main_corpus OPERATORS 1 rng_false :=
  c7_determinism OPERATORS OPERATORS 1 rng_false rng_false rfl rfl

/-- Claim C8: every opcode in the catalog is at most 59, hence below
0x80, so the raw opcode byte `generate_program` pushes is itself the
canonical single-byte-atom encoding of its own value and collides with
neither the pair marker 0xFF, the empty-atom marker 0x80, nor any
multi-byte length prefix. -/
theorem c8_opcode_single_byte :
    ∀ oper ∈ OPERATORS, oper.opcode ≤ 59 ∧
      classify_leading oper.opcode = ByteClass.singleByte oper.opcode ∧
      oper.opcode ≠ 0xff ∧ oper.opcode ≠ 0x80 := by decide

/-- Witness for C8 at the first catalog row (the apply operator). -/
theorem c8_witness :
    (op 2 [Ty.Program, Ty.Tree] Ty.AnyAtom).opcode ≤ 59 ∧
      classify_leading (op 2 [Ty.Program, Ty.Tree] Ty.AnyAtom).opcode =
        ByteClass.singleByte (op 2 [Ty.Program, Ty.Tree] Ty.AnyAtom).opcode ∧
      (op 2 [Ty.Program, Ty.Tree] Ty.AnyAtom).opcode ≠ 0xff ∧
      (op 2 [Ty.Program, Ty.Tree] Ty.AnyAtom).opcode ≠ 0x80 :=
  c8_opcode_single_byte (op 2 [Ty.Program, Ty.Tree] Ty.AnyAtom) (by decide)

/-- Claim C10: the literals emitted for Zero, Cost, Bytes32, Bytes48 and
Bytes96 are independent of the pseudorandom source: for every stream the
emitted bytes are the fixed constants below and the stream is returned
unchanged (no draw is consumed). -/
theorem c10_fixed_literals :
    ∀ (catalog : List OperatorInfo) (fuel : Nat) (rng : Rng) (buffer : List Nat),
      generate catalog (fuel + 1) Ty.Zero rng buffer =
        .ok (buffer ++ [0x80], rng) ∧
      generate catalog (fuel + 1) Ty.Cost rng buffer =
        .ok (buffer ++ [0x88, 0x00, 0x00, 0x00, 0x01, 0xdc, 0xd6, 0x50, 0x00], rng) ∧
      generate catalog (fuel + 1) Ty.Bytes32 rng buffer =
        .ok (buffer ++ 0xa0 :: List.replicate 32 0, rng) ∧
      generate catalog (fuel + 1) Ty.Bytes48 rng buffer =
        .ok (buffer ++ 0xb0 :: List.replicate 48 0, rng) ∧
      generate catalog (fuel + 1) Ty.Bytes96 rng buffer =
        .ok (buffer ++ 0xc0 :: 0x60 :: List.replicate 96 0, rng) := by
  intro catalog fuel rng buffer
  have hcost : write_atom [] (be_bytes 8 8000000000) =
      [0x88, 0x00, 0x00, 0x00, 0x01, 0xdc, 0xd6, 0x50, 0x00] := by decide
  have h32 : write_atom [] (ZEROS.take 32) = 0xa0 :: List.replicate 32 0 := by
    decide
  have h48 : write_atom [] (ZEROS.take 48) = 0xb0 :: List.replicate 48 0 := by
    decide
  have h96 : write_atom [] ZEROS = 0xc0 :: 0x60 :: List.replicate 96 0 := by
    decide
  refine ⟨by simp [generate], ?_, ?_, ?_, ?_⟩ <;>
    simp only [generate] <;> rw [write_atom_prepend]
  · rw [hcost]
  · rw [h32]
  · rw [h48]
  · rw [h96]
